import Mathlib

/-!
# Verification of the photo-frame repository

A shallow embedding of the photo-frame application (`photos.py`,
`display.py`, `webapp/app.py`, `main.py`) and proofs about its behaviour.

Modelling conventions:
* Python dictionaries / JSON records become structures with `Option` fields
  (`item.get(k)` returning `None` is `Option.none`; Python's truthiness of
  strings, where `""` is falsy, is the `truthy` predicate below).
* The local `photos/` directory is an association list from filename to a
  file record (content string and an integer mtime).  Downloads stamp the
  file with the current logical clock, which then advances.
* The network (`requests.get`) is a function from URL to a result that is
  either an HTTP response (status and body) or a raised transport
  exception.
* Python exceptions are modelled with `Except`: a function that can let an
  exception escape returns `Except Unit _`.
* Each wait-loop / poll-loop iteration of `display_photos_loop` is one step
  of a small transition system.
-/

namespace PhotoFrame

/-- Decidable equality for `Except`, so concrete runs can be checked by
`decide`. -/
instance {ε α : Type} [DecidableEq ε] [DecidableEq α] : DecidableEq (Except ε α) :=
  fun a b => match a, b with
  | .ok x, .ok y =>
    if h : x = y then isTrue (by rw [h]) else isFalse (fun hh => by cases hh; exact h rfl)
  | .error e, .error f =>
    if h : e = f then isTrue (by rw [h]) else isFalse (fun hh => by cases hh; exact h rfl)
  | .ok _, .error _ => isFalse (fun hh => by cases hh)
  | .error _, .ok _ => isFalse (fun hh => by cases hh)

/-- `p` is an initial segment of the second list (`str.startswith`). -/
def listBeginsWith : List Char → List Char → Bool
  | [], _ => true
  | _ :: _, [] => false
  | p :: ps, c :: cs => p == c && listBeginsWith ps cs

/-- ASCII lower-casing of one character (`str.lower`). -/
def charLower (c : Char) : Char :=
  if 'A' ≤ c && c ≤ 'Z' then Char.ofNat (c.toNat + 32) else c

/-- Python truthiness of an optional string: `None` and `""` are falsy. -/
def truthy : Option String → Bool
  | none => false
  | some s => !(s == "")

/-! ## `photos.py`: credentials -/

/-- The observable content of `token.json`: either a record that parses,
carrying the validity flag that `creds.valid` reports, or unparseable
bytes (on which `Credentials.from_authorized_user_file` raises). -/
inductive TokenData where
  | parsed (valid : Bool)
  | garbage
deriving Repr, DecidableEq

/-- A parsed OAuth credential; only its validity flag matters here. -/
structure Credentials where
  valid : Bool
deriving Repr, DecidableEq

/-- `photos._load_credentials`: `None` when `token.json` does not exist,
otherwise parse it (raising on garbage, modelled as `Except.error`),
returning `None` when the parsed credential is not valid. -/
def load_credentials : Option TokenData → Except Unit (Option Credentials)
  | none => .ok none
  | some .garbage => .error ()
  | some (.parsed v) => if v then .ok (some ⟨v⟩) else .ok none

/-- `photos.get_service`: `None` (here `false`) when no valid credential is
available; the service build step itself is external and assumed to
succeed.  The `load_credentials` call sits outside any `try`, so its
exception propagates. -/
def get_service (t : Option TokenData) : Except Unit Bool :=
  match load_credentials t with
  | .error e => .error e
  | .ok none => .ok false
  | .ok (some _) => .ok true

/-! ## `photos.py`: downloading -/

/-- One media item as returned by the remote library API
(`item.get("baseUrl")`, `item.get("filename")`, `item.get("mimeType", "")`). -/
structure MediaItem where
  baseUrl : Option String
  filename : Option String
  mimeType : String
deriving Repr, DecidableEq

/-- Result of `requests.get`: an HTTP response, or a raised transport
exception. -/
inductive FetchResult where
  | resp (status : Nat) (content : String)
  | exn
deriving Repr, DecidableEq

/-- A file in the local `photos/` directory. -/
structure LocalFile where
  content : String
  mtime : Nat
deriving Repr, DecidableEq

/-- The `photos/` directory: an association list from filename to file. -/
abbrev Dir := List (String × LocalFile)

/-- Lookup a filename in the directory (`file_path.exists()` /
reading the file). -/
def lookupFile (d : Dir) (f : String) : Option LocalFile :=
  match d with
  | [] => none
  | (g, file) :: rest => if g = f then some file else lookupFile rest f

/-- `str(DOWNLOAD_DIR / filename)`. -/
def photoPath (f : String) : String := "photos/" ++ f

/-- `mime.startswith("image/")`. -/
def mimeIsImage (m : String) : Bool := listBeginsWith "image/".data m.data

/-- Everything `download_latest_photos` produces: the returned paths, the
directory and clock after the call, the log lines printed, and the
filenames for which a network download was actually issued. -/
structure DlResult where
  paths : List String
  dir : Dir
  clock : Nat
  log : List String
  fetched : List String
deriving Repr, DecidableEq

/-- The `for item in items` loop of `download_latest_photos`, together
with the surrounding `try`/`except`: items missing a truthy `baseUrl` or
`filename`, or with a non-image mime type, are skipped; an existing file
contributes its path without a download; otherwise the item's URL
(`baseUrl + "=d"`) is fetched — status 200 writes the file (stamped with
the clock) and records the path, any other status silently skips the
item, and a transport exception escapes the loop to the outer handler,
which logs it and returns the paths collected so far. -/
def dlLoop (net : String → FetchResult) : List MediaItem → Dir → Nat → DlResult
  | [], dir, clock => ⟨[], dir, clock, [], []⟩
  | item :: rest, dir, clock =>
    if truthy item.baseUrl && truthy item.filename && mimeIsImage item.mimeType then
      let f := item.filename.getD ""
      if (lookupFile dir f).isSome then
        let r := dlLoop net rest dir clock
        { r with paths := photoPath f :: r.paths }
      else
        match net (item.baseUrl.getD "" ++ "=d") with
        | .exn => ⟨[], dir, clock, ["Error downloading photos"], [f]⟩
        | .resp s c =>
          if s = 200 then
            let r := dlLoop net rest ((f, ⟨c, clock⟩) :: dir) (clock + 1)
            { r with paths := photoPath f :: r.paths, fetched := f :: r.fetched }
          else
            let r := dlLoop net rest dir clock
            { r with fetched := f :: r.fetched }
    else
      dlLoop net rest dir clock

/-- `photos.download_latest_photos(n)`: load the credential (an exception
from parsing propagates — the `get_service()` call is outside the `try`),
return `[]` when unauthorised, otherwise list the `n` most recent remote
items (`pageSize=n` returns at most `n`) and run the download loop. -/
def download_latest_photos (t : Option TokenData) (net : String → FetchResult)
    (remote : List MediaItem) (n : Nat) (dir : Dir) (clock : Nat) :
    Except Unit DlResult :=
  match get_service t with
  | .error e => .error e
  | .ok false => .ok ⟨[], dir, clock, [], []⟩
  | .ok true => .ok (dlLoop net (remote.take n) dir clock)

/-! ## `photos.py`: `get_next_photo` -/

/-- `pathlib.Path(name).suffix`: the part of the name from the last dot
on, provided that dot is neither the first nor the last character. -/
def pathSuffix (name : String) : String :=
  let cs := name.toList
  let n := cs.length
  match ((List.range n).filter (fun i => cs.getD i ' ' == '.')).getLast? with
  | none => ""
  | some i => if 0 < i && i + 1 < n then String.mk (cs.drop i) else ""

/-- `f.suffix.lower() in {".jpg", ".jpeg", ".png"}`. -/
def isImageExt (name : String) : Bool :=
  let s := String.mk ((pathSuffix name).data.map charLower)
  s == ".jpg" || s == ".jpeg" || s == ".png"

/-- Python's `max(files, key=mtime)`: the first element attaining the
maximal mtime, in iteration order. -/
def pyMaxMtime : List (String × LocalFile) → Option (String × LocalFile)
  | [] => none
  | x :: xs => some (xs.foldl (fun acc y => if acc.2.mtime < y.2.mtime then y else acc) x)

/-- `photos.get_next_photo`: download at least one photo
(`download_latest_photos(1)`), then scan the directory for files with a
recognised image extension and return the path of the most recently
modified one, or `None` when there is none.  The directory and clock
after the call are returned alongside. -/
def get_next_photo (t : Option TokenData) (net : String → FetchResult)
    (remote : List MediaItem) (dir : Dir) (clock : Nat) :
    Except Unit (Option String × Dir × Nat) :=
  match download_latest_photos t net remote 1 dir clock with
  | .error e => .error e
  | .ok r =>
    match pyMaxMtime (r.dir.filter (fun p => isImageExt p.1)) with
    | none => .ok (none, r.dir, r.clock)
    | some best => .ok (some (photoPath best.1), r.dir, r.clock)

/-! ## `webapp/app.py`: the OAuth callback -/

/-- The Flask session; the only key the app uses is `"state"`. -/
structure Session where
  state : Option String
deriving Repr, DecidableEq

/-- Outcome of `flow.fetch_token(...)`: the serialised credential
(`creds.to_json()`), or a raised exception. -/
inductive ExchangeResult where
  | ok (tokenJson : String)
  | exn
deriving Repr, DecidableEq

/-- What a request to `/oauth2callback` leaves behind: the HTTP status of
the response, the content of `token.json` afterwards, and the session
afterwards. -/
structure CallbackOut where
  status : Nat
  tokenFile : Option String
  session : Session
deriving Repr, DecidableEq

/-- `webapp.app.oauth2callback`: read (`session.get`, which does not
remove) the `"state"` nonce; a falsy nonce is answered with 400 and
nothing else happens.  Otherwise rebuild the flow from
`client_secret.json` (a missing file raises, which Flask turns into a
500), exchange the callback for a token (an exception likewise becomes a
500), write the serialised credential to `token.json`, and redirect
(302) to the index page. -/
def oauth2callback (sess : Session) (clientSecretExists : Bool)
    (exch : ExchangeResult) (tokenFile : Option String) : CallbackOut :=
  if truthy sess.state then
    if clientSecretExists then
      match exch with
      | .exn => ⟨500, tokenFile, sess⟩
      | .ok tj => ⟨302, some tj, sess⟩
    else ⟨500, tokenFile, sess⟩
  else ⟨400, tokenFile, sess⟩

/-- The sequence of contents of `token.json` observable by a concurrent
reader while `oauth2callback` writes the credential with
`open("token.json", "w")` followed by `write`: the old content, then the
truncated (empty) file created by opening in mode `"w"`, then the new
content. -/
def tokenWriteStates (old : Option String) (new : String) : List (Option String) :=
  [old, some "", some new]

/-- Modelled from the spec: a scoped write-then-rename ("atomic replace")
save, under which a concurrent reader observes only the old or the new
content of the record file, never an intermediate state. -/
def atomicWriteStates (old : Option String) (new : String) : List (Option String) :=
  [old, some new]

/-! ## `display.py`: the display adapter -/

/-- An in-memory image, modelled by its pixel dimensions (the pixel data
itself is opaque to this development). -/
structure Img where
  width : Nat
  height : Nat
deriving Repr, DecidableEq

/-- Fallback panel resolution used when no Inky display is detected. -/
def WIDTH : Nat := 600

/-- Fallback panel resolution used when no Inky display is detected. -/
def HEIGHT : Nat := 448

/-- `ImageOps.fit(image, (w, h))`: centre-crop and resize, producing an
image of exactly the requested dimensions. -/
def imageFit (_img : Img) (w h : Nat) : Img := ⟨w, h⟩

/-- The debug files written when no panel is present, as a map from path
to image. -/
abbrev FileMap := String → Option Img

/-- `image.save(path)`: overwrite the file at `path`. -/
def saveImage (fs : FileMap) (path : String) (img : Img) : FileMap :=
  fun k => if k = path then some img else fs k

/-- What `display_image` did to the panel. -/
inductive PanelAction where
  | committed (img : Img)
  | noPanel
deriving Repr, DecidableEq

/-- `display.display_image`: with no panel detected, save the incoming
image to `latest_display.png` and return; with a panel, fit the image to
the panel resolution and commit it (`set_image` + `show`). -/
def display_image (panelPresent : Bool) (img : Img) (fs : FileMap) :
    FileMap × PanelAction :=
  if panelPresent then
    (fs, .committed (imageFit img WIDTH HEIGHT))
  else
    (saveImage fs "latest_display.png" img, .noPanel)

/-! ## `display.py`: the polling loop

`display_photos_loop` first busy-waits (`sleep(5)` per check) for
`token.json` to exist, then loops forever fetching and displaying.  A
step of the transition system below is one iteration of whichever loop
the program is in: one existence check of `token.json` in the `waiting`
phase (exiting the wait loop and running the first fetch counts as that
same step, since no sleep separates them), or one fetch-and-display
iteration in the `running` phase.  The Boolean produced by a step
records whether `get_next_photo` (the Photo Fetcher) was called. -/

/-- Phase of `display_photos_loop`: still inside the
`while not os.path.exists("token.json")` wait loop, or inside the main
`while True` loop. -/
inductive LoopPhase where
  | waiting
  | running
deriving Repr, DecidableEq

/-- One step of `display_photos_loop`, given whether `token.json` exists
at that moment; returns the next phase and whether the Photo Fetcher was
called during the step. -/
def loopStep (tokExists : Bool) : LoopPhase → LoopPhase × Bool
  | .waiting => if tokExists then (.running, true) else (.waiting, false)
  | .running => (.running, true)

/-- Run `k` steps of `display_photos_loop` from phase `st`, where `tok i`
says whether `token.json` exists at step `i`; returns the final phase and
the number of Photo Fetcher calls made. -/
def runLoop (tok : Nat → Bool) : Nat → LoopPhase → LoopPhase × Nat
  | 0, st => (st, 0)
  | k + 1, st =>
    let p := loopStep (tok 0) st
    let r := runLoop (fun i => tok (i + 1)) k p.1
    (r.1, (if p.2 then 1 else 0) + r.2)

/-! ## Lemmas about the download loop -/

lemma dlLoop_paths_length (net : String → FetchResult) (items : List MediaItem) :
    ∀ dir clock, (dlLoop net items dir clock).paths.length ≤ items.length := by
  induction items with
  | nil => intro dir clock; simp [dlLoop]
  | cons item rest ih =>
    intro dir clock
    simp only [dlLoop]
    split
    · split
      · simpa using Nat.succ_le_succ (ih ..)
      · split
        · simp
        · split
          · simpa using Nat.succ_le_succ (ih ..)
          · simpa using Nat.le_succ_of_le (ih ..)
    · simpa using Nat.le_succ_of_le (ih ..)

lemma dlLoop_lookup_mono (net : String → FetchResult) (items : List MediaItem) :
    ∀ dir clock f file, lookupFile dir f = some file →
      lookupFile (dlLoop net items dir clock).dir f = some file := by
  induction items with
  | nil => intro dir clock f file h; simpa [dlLoop] using h
  | cons item rest ih =>
    intro dir clock f file h
    simp only [dlLoop]
    split
    · split
      next hcache => simpa using ih dir clock f file h
      next hcache =>
        split
        next heq => simpa using h
        next s c heq =>
          split
          next hs =>
            refine ih _ _ f file ?_
            have hne : item.filename.getD "" ≠ f := by
              intro he
              rw [he] at hcache
              simp [h] at hcache
            simpa [lookupFile, hne] using h
          next hs => simpa using ih dir clock f file h
    · simpa using ih dir clock f file h

lemma dlLoop_cached_not_fetched (net : String → FetchResult) (items : List MediaItem) :
    ∀ dir clock f file, lookupFile dir f = some file →
      f ∉ (dlLoop net items dir clock).fetched := by
  induction items with
  | nil => intro dir clock f file h; simp [dlLoop]
  | cons item rest ih =>
    intro dir clock f file h
    simp only [dlLoop]
    split
    · split
      next hcache => simpa using ih dir clock f file h
      next hcache =>
        have hne : item.filename.getD "" ≠ f := by
          intro he
          rw [he] at hcache
          simp [h] at hcache
        split
        next heq => simpa using fun hh => hne hh.symm
        next s c heq =>
          split
          next hs =>
            have h' : lookupFile ((item.filename.getD "", ⟨c, clock⟩) :: dir) f = some file := by
              simpa [lookupFile, hne] using h
            simpa using ⟨fun hh => hne hh.symm, ih _ _ f file h'⟩
          next hs =>
            simpa using ⟨fun hh => hne hh.symm, ih dir clock f file h⟩
    · simpa using ih dir clock f file h

lemma dlLoop_paths_exist (net : String → FetchResult) (items : List MediaItem) :
    ∀ dir clock p, p ∈ (dlLoop net items dir clock).paths →
      ∃ f, p = photoPath f ∧ (lookupFile (dlLoop net items dir clock).dir f).isSome := by
  induction items with
  | nil => intro dir clock p hp; simp [dlLoop] at hp
  | cons item rest ih =>
    intro dir clock
    simp only [dlLoop]
    split
    · split
      next hcache =>
        intro p hp
        simp only [List.mem_cons] at hp
        rcases hp with rfl | hp
        · obtain ⟨file, hfile⟩ := Option.isSome_iff_exists.mp hcache
          exact ⟨_, rfl, by simp [dlLoop_lookup_mono net rest dir clock _ file hfile]⟩
        · simpa using ih dir clock p hp
      next hcache =>
        split
        next heq => intro p hp; simp at hp
        next s c heq =>
          split
          next hs =>
            intro p hp
            simp only [List.mem_cons] at hp
            rcases hp with rfl | hp
            · refine ⟨_, rfl, ?_⟩
              have h0 : lookupFile ((item.filename.getD "", ⟨c, clock⟩) :: dir)
                  (item.filename.getD "") = some ⟨c, clock⟩ := by simp [lookupFile]
              simp [dlLoop_lookup_mono net rest _ _ _ _ h0]
            · simpa using ih _ _ p hp
          next hs =>
            intro p hp
            simpa using ih dir clock p (by simpa using hp)
    · intro p hp
      exact ih dir clock p hp

lemma dlLoop_cached_path_mem (net : String → FetchResult)
    (hnet : ∀ u, net u ≠ .exn) (items : List MediaItem) :
    ∀ dir clock item, item ∈ items →
      truthy item.baseUrl = true → truthy item.filename = true →
      mimeIsImage item.mimeType = true →
      (lookupFile dir (item.filename.getD "")).isSome = true →
      photoPath (item.filename.getD "") ∈ (dlLoop net items dir clock).paths := by
  induction items with
  | nil => intro dir clock item hmem; simp at hmem
  | cons hd rest ih =>
    intro dir clock item hmem hb hf hm hcached
    simp only [List.mem_cons] at hmem
    simp only [dlLoop]
    split
    next hguard =>
      split
      next hcache =>
        rcases hmem with rfl | hmem
        · exact List.mem_cons_self _ _
        · simpa using Or.inr (ih dir clock item hmem hb hf hm hcached)
      next hcache =>
        rcases hmem with rfl | hmem
        · exact absurd hcached hcache
        · split
          next heq => exact absurd heq (hnet _)
          next s c heq =>
            split
            next hs =>
              have hc' : (lookupFile ((hd.filename.getD "", ⟨c, clock⟩) :: dir)
                  (item.filename.getD "")).isSome = true := by
                by_cases hk : hd.filename.getD "" = item.filename.getD ""
                · simp [lookupFile, hk]
                · simpa [lookupFile, hk] using hcached
              simpa using Or.inr (ih _ _ item hmem hb hf hm hc')
            next hs => simpa using ih dir clock item hmem hb hf hm hcached
    next hguard =>
      rcases hmem with rfl | hmem
      · simp [hb, hf, hm] at hguard
      · exact ih dir clock item hmem hb hf hm hcached


/-! ## Concrete fixtures used by witnesses and counterexamples -/

/-- A network on which every download responds 200. -/
def netOk : String → FetchResult := fun _ => .resp 200 "body"

/-- Remote media item with filename `a.jpg`. -/
def itemA : MediaItem := ⟨some "A", some "a.jpg", "image/jpeg"⟩

/-- Remote media item with filename `b.jpg`. -/
def itemB : MediaItem := ⟨some "B", some "b.jpg", "image/jpeg"⟩

/-- Remote media item with filename `c.jpg`. -/
def itemC : MediaItem := ⟨some "C", some "c.jpg", "image/jpeg"⟩

/-- A remote library of three image items. -/
def remoteB : List MediaItem := [itemA, itemB, itemC]

/-- A network on which `a.jpg` and `c.jpg` download fine but `b.jpg`'s
download raises a transport error. -/
def netB : String → FetchResult := fun url =>
  if url = "A=d" then .resp 200 "ca"
  else if url = "C=d" then .resp 200 "cc"
  else .exn

/-- A local directory already holding `a.jpg`. -/
def dirA : Dir := [("a.jpg", ⟨"orig", 7⟩)]

/-! ## C1 -/

/-- C1: for every `n`, `download_latest_photos(n)` returns at most `n`
paths; every returned path points, under `photos/`, at a file present in
the directory when the call returns; a filename already present locally
is never fetched over the network again and its content is unchanged;
and (when a valid credential is present and no transport error occurs in
the batch) an already-cached item contributes its cached path to the
returned list. -/
theorem C1_fetch_latest_contract (t : Option TokenData) (net : String → FetchResult)
    (remote : List MediaItem) (n : Nat) (dir : Dir) (clock : Nat) (r : DlResult)
    (h : download_latest_photos t net remote n dir clock = .ok r) :
    r.paths.length ≤ n
    ∧ (∀ p ∈ r.paths, ∃ f, p = photoPath f ∧ (lookupFile r.dir f).isSome)
    ∧ (∀ f file, lookupFile dir f = some file →
        lookupFile r.dir f = some file ∧ f ∉ r.fetched)
    ∧ (t = some (.parsed true) → (∀ u, net u ≠ .exn) →
        ∀ item ∈ remote.take n,
          truthy item.baseUrl = true → truthy item.filename = true →
          mimeIsImage item.mimeType = true →
          (lookupFile dir (item.filename.getD "")).isSome = true →
          photoPath (item.filename.getD "") ∈ r.paths) := by
  simp only [download_latest_photos] at h
  split at h
  · exact absurd h (by simp)
  next heq =>
    cases h
    refine ⟨by simp, by simp, ?_, ?_⟩
    · intro f file hf
      exact ⟨hf, by simp⟩
    · intro ht
      subst ht
      simp [get_service, load_credentials] at heq
  next heq =>
    cases h
    refine ⟨?_, dlLoop_paths_exist net _ dir clock, ?_, ?_⟩
    · calc (dlLoop net (remote.take n) dir clock).paths.length
          ≤ (remote.take n).length := dlLoop_paths_length net _ dir clock
        _ ≤ n := by simp [List.length_take]
    · intro f file hf
      exact ⟨dlLoop_lookup_mono net _ dir clock f file hf,
        dlLoop_cached_not_fetched net _ dir clock f file hf⟩
    · intro _ hnet item hmem hb hf hm hc
      exact dlLoop_cached_path_mem net hnet _ dir clock item hmem hb hf hm hc

/-- Witness for C1: with a valid credential, a one-item remote library
whose single item `a.jpg` is already cached, the call returns exactly the
cached path, fetches nothing, and leaves the directory unchanged. -/
theorem C1_fetch_latest_contract_witness :
    download_latest_photos (some (.parsed true)) netOk [itemA] 1 dirA 0 =
      .ok ⟨["photos/a.jpg"], dirA, 0, [], []⟩
    ∧ ["photos/a.jpg"].length ≤ 1
    ∧ photoPath "a.jpg" ∈ ["photos/a.jpg"] :=
  ⟨by decide,
   (C1_fetch_latest_contract (some (.parsed true)) netOk [itemA] 1 dirA 0
     ⟨["photos/a.jpg"], dirA, 0, [], []⟩ (by decide)).1,
   (C1_fetch_latest_contract (some (.parsed true)) netOk [itemA] 1 dirA 0
     ⟨["photos/a.jpg"], dirA, 0, [], []⟩ (by decide)).2.2.2 rfl
     (fun u => by simp [netOk]) itemA (by simp) (by decide) (by decide)
     (by decide) (by decide)⟩

/-! ## C2 -/

/-- C2 counterexample: in a three-item batch where `b.jpg`'s download
raises a transport error while `c.jpg`'s download would succeed, the
batch aborts at `b.jpg`: `c.jpg` is never processed, and its path is not
among the returned ones — refuting the claim that all remaining items are
still processed and their paths returned. -/
theorem C2_counterexample :
    netB "B=d" = .exn
    ∧ netB "C=d" = .resp 200 "cc"
    ∧ download_latest_photos (some (.parsed true)) netB remoteB 3 [] 0 =
        .ok ⟨["photos/a.jpg"], [("a.jpg", ⟨"ca", 0⟩)], 1,
          ["Error downloading photos"], ["a.jpg", "b.jpg"]⟩
    ∧ photoPath "c.jpg" ∉ ["photos/a.jpg"]
    ∧ "c.jpg" ∉ ["a.jpg", "b.jpg"] := by decide

/-- C2 (amended): a download yielding a non-200 status skips only that
item — no path, no log line — and the batch continues with the remaining
items; a download raising a transport error is logged and aborts the
remainder of the batch: no later item is processed, and only the paths
collected before the failure are returned. -/
theorem C2_amended_error_handling (net : String → FetchResult)
    (item : MediaItem) (rest : List MediaItem) (dir : Dir) (clock : Nat)
    (b f : String) (hb : item.baseUrl = some b) (hf : item.filename = some f)
    (hbne : b ≠ "") (hfne : f ≠ "") (hm : mimeIsImage item.mimeType = true)
    (hmiss : lookupFile dir f = none) :
    (net (b ++ "=d") = .exn →
      dlLoop net (item :: rest) dir clock =
        ⟨[], dir, clock, ["Error downloading photos"], [f]⟩)
    ∧ (∀ s c, net (b ++ "=d") = .resp s c → s ≠ 200 →
        dlLoop net (item :: rest) dir clock =
          { dlLoop net rest dir clock with
              fetched := f :: (dlLoop net rest dir clock).fetched }) := by
  constructor
  · intro hexn
    simp [dlLoop, hb, hf, truthy, hbne, hfne, hm, hmiss, hexn]
  · intro s c hresp hs
    simp [dlLoop, hb, hf, truthy, hbne, hfne, hm, hmiss, hresp, hs]

/-- Witness for C2 (amended): the transport error on `b.jpg` aborts a
two-item batch immediately, logging the error and returning no paths. -/
theorem C2_amended_error_handling_witness :
    dlLoop netB [itemB, itemC] [] 0 =
      ⟨[], [], 0, ["Error downloading photos"], ["b.jpg"]⟩ :=
  (C2_amended_error_handling netB itemB [itemC] [] 0 "B" "b.jpg"
    rfl rfl (by decide) (by decide) (by decide) rfl).1 (by decide)


/-! ## C3 -/

/-- C3 counterexample: writing a new credential over an old one with the
code's `open("token.json", "w")`-then-`write` exposes the truncated
empty file to a concurrent reader — a state that is neither the old nor
the new record and that a write-then-rename save never exposes.  The
observable write sequence differs from the atomic one. -/
theorem C3_counterexample :
    tokenWriteStates (some "old") "new" ≠ atomicWriteStates (some "old") "new"
    ∧ some "" ∈ tokenWriteStates (some "old") "new"
    ∧ some "" ≠ (some "old" : Option String)
    ∧ some "" ≠ (some "new" : Option String)
    ∧ some "" ∉ atomicWriteStates (some "old") "new" := by decide

/-- C3 (amended): the credential write of the OAuth callback handler is a
plain truncating write (`open` in mode `"w"`, then `write`), not
write-then-rename: whenever the record being written is non-empty and the
previous record was not itself empty, a concurrent reader can observe an
intermediate state of the record file that is neither the old content nor
the new one. -/
theorem C3_amended_save_not_atomic (old : Option String) (new : String)
    (h1 : old ≠ some "") (h2 : new ≠ "") :
    ∃ s ∈ tokenWriteStates old new, s ≠ old ∧ s ≠ some new
      ∧ s ∉ atomicWriteStates old new := by
  refine ⟨some "", by simp [tokenWriteStates], fun hh => h1 hh.symm,
    by simpa using fun hh => h2 hh.symm, ?_⟩
  simp only [atomicWriteStates, List.mem_cons, List.mem_singleton]
  rintro (hh | hh | hh)
  · exact h1 hh.symm
  · exact h2 (by injection hh with hh; exact hh.symm)
  · simp at hh

/-- Witness for C3 (amended): writing `"new"` over `"old"`. -/
theorem C3_amended_save_not_atomic_witness :
    ∃ s ∈ tokenWriteStates (some "old") "new", s ≠ some "old" ∧ s ≠ some "new"
      ∧ s ∉ atomicWriteStates (some "old") "new" :=
  C3_amended_save_not_atomic (some "old") "new" (by decide) (by decide)

/-! ## C4 -/

/-- C4 counterexample: on an unparseable record file,
`load_credentials` raises (`Credentials.from_authorized_user_file` is
called outside any handler) instead of returning nothing. -/
theorem C4_counterexample :
    load_credentials (some .garbage) = .error ()
    ∧ load_credentials (some .garbage) ≠ .ok none := by decide

/-- C4 (amended): `load_credentials` returns nothing when the record
file does not exist or when the stored record parses but fails the
validity check; it returns the parsed credential when the record is
parseable and valid; an unparseable record, however, raises an error
rather than returning nothing. -/
theorem C4_amended_load_behaviour (t : Option TokenData) :
    (load_credentials t = .ok none ↔ (t = none ∨ t = some (.parsed false)))
    ∧ (load_credentials t = .error () ↔ t = some .garbage)
    ∧ ((∃ c, load_credentials t = .ok (some c)) ↔ t = some (.parsed true)) := by
  rcases t with _ | td
  · simp [load_credentials]
  · cases td with
    | parsed v => cases v <;> simp [load_credentials]
    | garbage => simp [load_credentials]

/-! ## C5 -/

/-- C5: a callback request arriving with no `"state"` nonce in the
session is answered with HTTP 400, and the `token.json` record file is
left exactly as it was (the response carries the unchanged file and
session). -/
theorem C5_callback_no_state (cs : Bool) (exch : ExchangeResult)
    (tf : Option String) (sess : Session) (h : sess.state = none) :
    oauth2callback sess cs exch tf = ⟨400, tf, sess⟩ := by
  simp [oauth2callback, truthy, h]

/-- Witness for C5: a stateless session, with a pre-existing record file,
yields 400 and the record file is untouched. -/
theorem C5_callback_no_state_witness :
    oauth2callback ⟨none⟩ true (.ok "tok") (some "old") =
      ⟨400, some "old", ⟨none⟩⟩ :=
  C5_callback_no_state true (.ok "tok") (some "old") ⟨none⟩ rfl

/-! ## C6 -/

/-- C6 counterexample: a callback that completes successfully
(status 302, credential written) leaves the `"state"` nonce in the
session — `session.get` does not remove it — so a second callback in the
same session still observes the nonce and is not rejected with 400. -/
theorem C6_counterexample :
    (oauth2callback ⟨some "x"⟩ true (.ok "tok") none).status = 302
    ∧ (oauth2callback ⟨some "x"⟩ true (.ok "tok") none).session = ⟨some "x"⟩
    ∧ (oauth2callback ⟨some "x"⟩ true (.ok "tok") none).session ≠ (⟨none⟩ : Session)
    ∧ (oauth2callback (oauth2callback ⟨some "x"⟩ true (.ok "tok") none).session
        true (.ok "tok2") (some "tok")).status ≠ 400 := by decide

/-- C6 (amended): the callback handler never consumes the nonce: whatever
the request's outcome, the session after `oauth2callback` is exactly the
session before it, so a subsequent callback in the same session observes
the same stored nonce. -/
theorem C6_amended_state_not_consumed (sess : Session) (cs : Bool)
    (exch : ExchangeResult) (tf : Option String) :
    (oauth2callback sess cs exch tf).session = sess := by
  cases hx : truthy sess.state <;> cases cs <;> cases exch <;>
    simp [oauth2callback, hx]

/-! ## C7 -/

/-- C7 counterexample: with no panel, `display_image` writes the
*original* image to the debug path — `ImageOps.fit` is applied only on
the hardware branch — so a 100×100 input is saved as 100×100, not as the
600×448 centre-cropped fill that the claim describes. -/
theorem C7_counterexample :
    ((display_image false ⟨100, 100⟩ (fun _ => none)).1) "latest_display.png" =
      some ⟨100, 100⟩
    ∧ imageFit ⟨100, 100⟩ WIDTH HEIGHT = ⟨600, 448⟩
    ∧ (⟨100, 100⟩ : Img) ≠ (⟨600, 448⟩ : Img) := by decide

/-- C7 (amended): with no panel detected, `display_image` writes the
incoming image unmodified (not resized or cropped to the panel
resolution) to the fixed debug path `latest_display.png`, commits nothing
to hardware, and a second call overwrites the same fixed path, leaving
every other path untouched. -/
theorem C7_amended_headless_writes_original (img1 img2 : Img) (fs : FileMap) :
    ((display_image false img1 fs).1) "latest_display.png" = some img1
    ∧ (display_image false img1 fs).2 = PanelAction.noPanel
    ∧ (∀ k, ((display_image false img2 (display_image false img1 fs).1).1) k =
        if k = "latest_display.png" then some img2 else fs k) := by
  refine ⟨by simp [display_image, saveImage], by simp [display_image], ?_⟩
  intro k
  by_cases hk : k = "latest_display.png" <;> simp [display_image, saveImage, hk]


/-! ## C8 and C10: the polling loop -/

/-- C8: while `token.json` does not exist, `display_photos_loop` stays in
its wait loop and never calls the Photo Fetcher (its call count is 0 over
any number of wait cycles); at the first cycle where the record exists,
the loop leaves the wait phase and makes its first Photo Fetcher call
during that very cycle. -/
theorem C8_wait_for_token (k : Nat) (tok : Nat → Bool)
    (hbefore : ∀ i, i < k → tok i = false) (hk : tok k = true) :
    runLoop tok k .waiting = (.waiting, 0)
    ∧ runLoop tok (k + 1) .waiting = (.running, 1) := by
  induction k generalizing tok with
  | zero =>
    refine ⟨rfl, ?_⟩
    simp [runLoop, loopStep, hk]
  | succ k ih =>
    have h0 : tok 0 = false := hbefore 0 (Nat.succ_pos k)
    have hb' : ∀ i, i < k → tok (i + 1) = false :=
      fun i hi => hbefore (i + 1) (Nat.succ_lt_succ hi)
    obtain ⟨ih1, ih2⟩ := ih (fun i => tok (i + 1)) hb' hk
    constructor
    · simp [runLoop, loopStep, h0, ih1]
    · have hstep : runLoop tok (k + 1 + 1) .waiting =
          ((runLoop (fun i => tok (i + 1)) (k + 1) (loopStep (tok 0) .waiting).1).1,
           (if (loopStep (tok 0) .waiting).2 then 1 else 0) +
             (runLoop (fun i => tok (i + 1)) (k + 1) (loopStep (tok 0) .waiting).1).2) := rfl
      rw [hstep]
      simp [loopStep, h0, ih2]

/-- Witness for C8: `token.json` appears at cycle 1; the loop makes no
fetch call during cycle 0 and its first fetch call during cycle 1. -/
theorem C8_wait_for_token_witness :
    runLoop (fun i => decide (1 ≤ i)) 1 .waiting = (.waiting, 0)
    ∧ runLoop (fun i => decide (1 ≤ i)) 2 .waiting = (.running, 1) :=
  C8_wait_for_token 1 (fun i => decide (1 ≤ i))
    (fun i hi => by
      have : i = 0 := by omega
      subst this
      rfl)
    (by decide)

/-- C10: once `display_photos_loop` has left its wait phase, the
existence of `token.json` is never consulted again: over any `k`
subsequent iterations and any history of the record file — including its
deletion — the loop stays in the running phase and calls the Photo
Fetcher on every iteration. -/
theorem C10_no_recheck_after_wait (tok : Nat → Bool) (k : Nat) :
    runLoop tok k .running = (.running, k) := by
  induction k generalizing tok with
  | zero => rfl
  | succ k ih => simp [runLoop, loopStep, ih, Nat.add_comm]

/-! ## C9: `get_next_photo` -/

/-- The running maximum taken by Python's `max(files, key=mtime)`: the
fold's result is the accumulator or a list element, dominates the
accumulator's mtime, and dominates every list element's mtime. -/
lemma foldlMax_spec (ys : List (String × LocalFile)) :
    ∀ acc : String × LocalFile,
      (ys.foldl (fun a y => if a.2.mtime < y.2.mtime then y else a) acc = acc
        ∨ ys.foldl (fun a y => if a.2.mtime < y.2.mtime then y else a) acc ∈ ys)
      ∧ acc.2.mtime ≤
          (ys.foldl (fun a y => if a.2.mtime < y.2.mtime then y else a) acc).2.mtime
      ∧ ∀ y ∈ ys,
          y.2.mtime ≤
            (ys.foldl (fun a y => if a.2.mtime < y.2.mtime then y else a) acc).2.mtime := by
  induction ys with
  | nil => intro acc; simp
  | cons y ys ih =>
    intro acc
    simp only [List.foldl_cons]
    obtain ⟨hmem, hle, hall⟩ := ih (if acc.2.mtime < y.2.mtime then y else acc)
    have h1 : acc.2.mtime ≤ (if acc.2.mtime < y.2.mtime then y else acc).2.mtime := by
      split <;> omega
    have h2 : y.2.mtime ≤ (if acc.2.mtime < y.2.mtime then y else acc).2.mtime := by
      split
      · exact Nat.le_refl _
      · omega
    refine ⟨?_, Nat.le_trans h1 hle, ?_⟩
    · rcases hmem with h | h
      · rw [h]
        split
        · exact Or.inr (List.mem_cons_self _ _)
        · exact Or.inl rfl
      · exact Or.inr (List.mem_cons_of_mem _ h)
    · intro z hz
      rcases List.mem_cons.mp hz with rfl | hz
      · exact Nat.le_trans h2 hle
      · exact hall z hz

/-- `pyMaxMtime` returns nothing exactly on the empty list. -/
lemma pyMaxMtime_eq_none (l : List (String × LocalFile)) :
    pyMaxMtime l = none ↔ l = [] := by
  cases l <;> simp [pyMaxMtime]

/-- The element `pyMaxMtime` returns belongs to the list and its mtime
dominates every element's mtime. -/
lemma pyMaxMtime_spec (l : List (String × LocalFile)) (x : String × LocalFile)
    (h : pyMaxMtime l = some x) :
    x ∈ l ∧ ∀ y ∈ l, y.2.mtime ≤ x.2.mtime := by
  cases l with
  | nil => simp [pyMaxMtime] at h
  | cons a as =>
    simp only [pyMaxMtime, Option.some.injEq] at h
    subst h
    obtain ⟨hmem, hle, hall⟩ := foldlMax_spec as a
    refine ⟨?_, ?_⟩
    · rcases hmem with h | h
      · rw [h]; exact List.mem_cons_self _ _
      · exact List.mem_cons_of_mem _ h
    · intro y hy
      rcases List.mem_cons.mp hy with rfl | hy
      · exact hle
      · exact hall y hy

/-- Remote media item with filename `new.jpg`. -/
def itemN : MediaItem := ⟨some "N", some "new.jpg", "image/jpeg"⟩

/-- A local directory holding `old.png` with a large mtime. -/
def dirOld : Dir := [("old.png", ⟨"x", 100⟩)]

/-- C9: `get_next_photo` first runs `download_latest_photos(1)` (the
directory and clock it leaves behind are those of that call); it returns
nothing exactly when no file with a recognised image extension exists;
when it returns a path, that path names a file of the directory with a
recognised extension whose mtime dominates all recognised files; and on
a concrete run the returned file (`old.png`) differs from the file just
fetched (`new.jpg`). -/
theorem C9_get_next_photo_contract (t : Option TokenData)
    (net : String → FetchResult) (remote : List MediaItem) (dir : Dir)
    (clock : Nat) (res : Option String) (dir' : Dir) (clock' : Nat)
    (h : get_next_photo t net remote dir clock = .ok (res, dir', clock')) :
    (∃ r, download_latest_photos t net remote 1 dir clock = .ok r
      ∧ r.dir = dir' ∧ r.clock = clock')
    ∧ (res = none ↔ dir'.filter (fun p => isImageExt p.1) = [])
    ∧ (∀ p, res = some p →
        ∃ f file, (f, file) ∈ dir' ∧ isImageExt f = true ∧ p = photoPath f
          ∧ ∀ g gfile, (g, gfile) ∈ dir' → isImageExt g = true →
              gfile.mtime ≤ file.mtime)
    ∧ (get_next_photo (some (.parsed true)) netOk [itemN] dirOld 0 =
        .ok (some (photoPath "old.png"),
          [("new.jpg", ⟨"body", 0⟩), ("old.png", ⟨"x", 100⟩)], 1)
      ∧ download_latest_photos (some (.parsed true)) netOk [itemN] 1 dirOld 0 =
          .ok ⟨[photoPath "new.jpg"],
            [("new.jpg", ⟨"body", 0⟩), ("old.png", ⟨"x", 100⟩)], 1, [],
            ["new.jpg"]⟩
      ∧ photoPath "old.png" ≠ photoPath "new.jpg") := by
  simp only [get_next_photo] at h
  split at h
  · exact absurd h (by simp)
  next r heq =>
    split at h
    next hmax =>
      cases h
      refine ⟨⟨r, heq, rfl, rfl⟩, ?_, ?_, by decide⟩
      · simpa using (pyMaxMtime_eq_none _).mp hmax
      · intro p hp
        simp at hp
    next best hmax =>
      cases h
      obtain ⟨hmem, hall⟩ := pyMaxMtime_spec _ best hmax
      rw [List.mem_filter] at hmem
      refine ⟨⟨r, heq, rfl, rfl⟩, ?_, ?_, by decide⟩
      · constructor
        · intro hh; cases hh
        · intro hh
          rw [hh] at hmax
          simp [pyMaxMtime] at hmax
      · intro p hp
        obtain rfl : p = photoPath best.1 := by
          simpa using hp.symm
        refine ⟨best.1, best.2, hmem.1, hmem.2, rfl, ?_⟩
        intro g gfile hg hext
        exact hall (g, gfile) (List.mem_filter.mpr ⟨hg, hext⟩)

/-- Witness for C9: the concrete run that downloads `new.jpg` into a
directory already holding the newer-mtime `old.png`. -/
theorem C9_get_next_photo_contract_witness :
    get_next_photo (some (.parsed true)) netOk [itemN] dirOld 0 =
      .ok (some (photoPath "old.png"),
        [("new.jpg", ⟨"body", 0⟩), ("old.png", ⟨"x", 100⟩)], 1) :=
  ((C9_get_next_photo_contract (some (.parsed true)) netOk [itemN] dirOld 0
    (some (photoPath "old.png"))
    [("new.jpg", ⟨"body", 0⟩), ("old.png", ⟨"x", 100⟩)] 1 (by decide)).2.2.2).1

end PhotoFrame
